import Mathlib

/-!
# Verification of the resource-lifecycle core of the Data Explorer backend

Shallow embedding of the two core modules:

* `src/config/db.js` — the connection pool (`getMongoClient`,
  `cleanupIdleConnections`, `getActiveConnections`);
* `src/config/sessionManagerDB.js` — the dual-backend session store
  (`initSessionDB`, `createSession`, `getConnectionString`, `deleteSession`,
  `performCleanup`);
* `src/config/sessionManager.js` — the standalone in-memory session manager
  (`createSession` with its `MAX_SESSIONS` LRU eviction).

JS `Map`s are modelled as insertion-ordered association lists; `Date.now()`
timestamps are `Nat` millisecond values passed explicitly; every `await`ed
driver call that can throw is given an explicit Boolean outcome parameter
(the oracle of that call), so stateful JS functions become pure state
transformers.
-/

set_option maxHeartbeats 1000000

namespace DE

/-! ## Association-list model of a JS `Map`

Insertion-ordered key-value pairs with unique keys.  `Map.set` on an
existing key keeps its position (JS semantics) and on a fresh key appends;
`Map.delete` removes the key; `Map.get` looks it up. -/

def mget {κ α : Type} [DecidableEq κ] : List (κ × α) → κ → Option α
  | [], _ => none
  | (k', v) :: rest, k => if k' = k then some v else mget rest k

def mset {κ α : Type} [DecidableEq κ] : List (κ × α) → κ → α → List (κ × α)
  | [], k, v => [(k, v)]
  | (k', v') :: rest, k, v =>
    if k' = k then (k, v) :: rest else (k', v') :: mset rest k v

def merase {κ α : Type} [DecidableEq κ] : List (κ × α) → κ → List (κ × α)
  | [], _ => []
  | (k', v') :: rest, k => if k' = k then rest else (k', v') :: merase rest k

def keysOf {κ α : Type} (s : List (κ × α)) : List κ := s.map Prod.fst


/-! ## Connection pool — `src/config/db.js`

`clients` is the module-level `Map` keyed by the sha256 hex of the
connection string.  The hash itself is kept abstract: pool operations take
the hashing function as an explicit parameter, since no pool behaviour
depends on its algebraic properties.  A `MongoClient` handle is identified
by the `Nat` allocated at its `new MongoClient(...)` site (`nextClientId`);
`connectAttempts` is the spec's connect-attempt counter, incremented each
time `client.connect()` is issued. -/

def CLIENT_IDLE_TIMEOUT : Nat := 30 * 60 * 1000

structure PoolEntry where
  clientId : Nat
  created : Nat
  lastUsed : Nat
deriving DecidableEq, Repr

structure PoolState where
  clients : List (String × PoolEntry)
  nextClientId : Nat
  connectAttempts : Nat
deriving DecidableEq, Repr

inductive ConnResult where
  | ok (clientId : Nat)
  | err (cause : String)
deriving DecidableEq, Repr

/-- `new MongoClient(connStr, {...})` followed by issuing `await
client.connect()`: allocates the handle identity and counts the connect
attempt.  Execution of the calling `getMongoClient` suspends here until the
connect settles; nothing has been inserted into `clients` yet. -/
def beginConnect (st : PoolState) : Nat × PoolState :=
  (st.nextClientId,
   { st with nextClientId := st.nextClientId + 1,
             connectAttempts := st.connectAttempts + 1 })

/-- The awaited `client.connect()` settles.  On success the entry is stored
(`clients.set(key, { client, created, lastUsed })`) and the handle returned;
on failure the driver error propagates to the caller and nothing is
inserted. -/
def connectResolve (st : PoolState) (key : String) (cid : Nat) (now : Nat)
    (connectOk : Bool) (cause : String) : ConnResult × PoolState :=
  if connectOk then
    (.ok cid,
     { st with clients := mset st.clients key ⟨cid, now, now⟩ })
  else
    (.err cause, st)

/-- `getMongoClient(connStr)` run to completion with no interleaved caller:
if an entry exists for the hashed key, `ping` it (`pingOk` is that probe's
outcome); on probe success refresh `lastUsed` and return the pooled handle;
on probe failure delete the entry and fall through to creation.  Creating
issues one `connect()` whose outcome is `connectOk` (`cause` is the driver
error it would throw). -/
def getMongoClient (hash : String → String) (st : PoolState)
    (connStr : String) (now : Nat) (pingOk connectOk : Bool)
    (cause : String) : ConnResult × PoolState :=
  let key := hash connStr
  match mget st.clients key with
  | some e =>
    if pingOk then
      (.ok e.clientId,
       { st with clients := mset st.clients key { e with lastUsed := now } })
    else
      let st' := { st with clients := merase st.clients key }
      let (cid, st'') := beginConnect st'
      connectResolve st'' key cid now connectOk cause
  | none =>
    let (cid, st') := beginConnect st
    connectResolve st' key cid now connectOk cause

/-- The interleaving JS permits for two concurrent `getMongoClient(connStr)`
calls on the same fingerprint: both run their synchronous prefix (the
`clients.has(key)` check and `beginConnect`) before either awaited connect
settles, then the connects settle in call order, both succeeding.  Returns
`none` when the fingerprint is already pooled, in which case this race
cannot arise. -/
def twoConcurrentAcquires (hash : String → String) (st : PoolState)
    (connStr : String) (now : Nat) :
    Option ((ConnResult × ConnResult) × PoolState) :=
  let key := hash connStr
  match mget st.clients key with
  | some _ => none
  | none =>
    let (cidA, st1) := beginConnect st
    match mget st1.clients key with
    | some _ => none
    | none =>
      let (cidB, st2) := beginConnect st1
      let (rA, st3) := connectResolve st2 key cidA now true ""
      let (rB, st4) := connectResolve st3 key cidB now true ""
      some ((rA, rB), st4)

structure ConnectionInfo where
  connectionKey : String
  createdAt : Nat
  lastUsed : Nat
  idleTime : Nat
deriving DecidableEq, Repr

/-- `getActiveConnections()`: one row per pooled entry; only the first 8
characters of the hashed key are exposed. -/
def getActiveConnections (st : PoolState) (now : Nat) : List ConnectionInfo :=
  st.clients.map fun e =>
    ⟨(e.1.take 8) ++ "...", e.2.created, e.2.lastUsed, now - e.2.lastUsed⟩

/-- `cleanupIdleConnections()`: collect the keys whose idle time exceeds
`CLIENT_IDLE_TIMEOUT`, then for each one independently `await client.close()`
and, only if the close did not throw, delete the entry (`clients.delete`
sits after the `await` inside the `try`); a throwing close is caught and
logged, leaving that entry in place and the other iterations unaffected.
`closeFails` gives each key's close outcome. -/
def cleanupIdleConnections (st : PoolState) (now : Nat)
    (closeFails : String → Bool) : PoolState :=
  let toRemove :=
    keysOf (st.clients.filter fun e =>
      decide (CLIENT_IDLE_TIMEOUT < now - e.2.lastUsed))
  { st with
    clients := toRemove.foldl
      (fun m k => if closeFails k then m else merase m k) st.clients }

/-! ## Dual-backend session store — `src/config/sessionManagerDB.js`

Session ids are uuid strings used only as opaque tokens; they are modelled
as `Nat`.  The persistent collection's contents are modelled as a map
`dbStore` (documents keyed by `sessionId`), the fallback `memoryStore`
likewise.  The module-level flags `dbInitAttempted`, `dbAvailable` and the
`sessionCollection` cache (`hasCollection` models `sessionCollection !==
null`) make up the mode state.  Every driver call that can throw gets an
explicit outcome parameter. -/

def SESSION_TIMEOUT : Nat := 2 * 60 * 60 * 1000

abbrev SessionId := Nat

structure SessionRecord where
  connStr : String
  createdAt : Nat
  lastAccessed : Nat
deriving DecidableEq, Repr

structure SessionDBState where
  dbStore : List (SessionId × SessionRecord)
  memoryStore : List (SessionId × SessionRecord)
  dbInitAttempted : Bool
  dbAvailable : Bool
  hasCollection : Bool
  lastCleanupTime : Nat
deriving DecidableEq, Repr

/-- Outcome of the one persistent-backend initialization attempt.
`indexFails` is the case where `connect()` succeeded — so
`sessionCollection` has already been assigned — but a `createIndex` call
threw. -/
inductive InitOutcome where
  | connectFails
  | indexFails
  | ok
deriving DecidableEq, Repr

/-- `initSessionDB()`: returns the collection (`some ()`) or `null`
(`none`).  Caches the collection; only tries once after a failure thanks to
the `dbInitAttempted && !dbAvailable` guard.  Note the source assigns
`sessionCollection` *before* its `createIndex` calls, so an index-creation
failure leaves the collection cached even though the attempt failed. -/
def initSessionDB (st : SessionDBState) (oc : InitOutcome) :
    Option Unit × SessionDBState :=
  if st.hasCollection then
    (some (), st)
  else if st.dbInitAttempted && !st.dbAvailable then
    (none, st)
  else
    let st := { st with dbInitAttempted := true }
    match oc with
    | .connectFails => (none, { st with dbAvailable := false })
    | .indexFails =>
      (none, { st with hasCollection := true, dbAvailable := false })
    | .ok => (some (), { st with hasCollection := true, dbAvailable := true })

/-- `createSession(connStr)`: generate a token (passed in as `sid`), then
try the collection; insert into the db when available (`insertOk` is the
`insertOne` outcome — a throw lands in the emergency catch, which writes to
`memoryStore` instead), insert into `memoryStore` when not.  Both paths
return the token. -/
def createSession (st : SessionDBState) (sid : SessionId) (connStr : String)
    (now : Nat) (initOc : InitOutcome) (insertOk : Bool) :
    SessionId × SessionDBState :=
  let r : SessionRecord := ⟨connStr, now, now⟩
  let (coll, st) := initSessionDB st initOc
  match coll with
  | some _ =>
    if insertOk then
      (sid, { st with dbStore := mset st.dbStore sid r })
    else
      (sid, { st with memoryStore := mset st.memoryStore sid r })
  | none =>
    (sid, { st with memoryStore := mset st.memoryStore sid r })

/-- Expiry predicate shared by the lazy check, `deleteMany({lastAccessed:
{$lt: cutoff}})` and `cleanupMemoryStore` — over `Nat` timestamps all three
coincide with `now - lastAccessed > SESSION_TIMEOUT`. -/
def expired (now la : Nat) : Bool := decide (SESSION_TIMEOUT < now - la)

/-- `cleanupMemoryStore()`: drop expired records, stamp
`lastCleanupTime = now`. -/
def cleanupMemoryStore (st : SessionDBState) (now : Nat) : SessionDBState :=
  { st with
    memoryStore := st.memoryStore.filter fun e => !expired now e.2.lastAccessed,
    lastCleanupTime := now }

/-- `performCleanup()`: in persistent mode `deleteMany` the expired
documents (`cleanupThrows` is that call's outcome; a throw is caught and
falls back to the memory cleanup), otherwise clean the memory store. -/
def performCleanup (st : SessionDBState) (now : Nat) (initOc : InitOutcome)
    (cleanupThrows : Bool) : SessionDBState :=
  let (coll, st) := initSessionDB st initOc
  match coll with
  | some _ =>
    if cleanupThrows then cleanupMemoryStore st now
    else
      { st with
        dbStore := st.dbStore.filter fun e => !expired now e.2.lastAccessed }
  | none => cleanupMemoryStore st now

/-- Per-call outcomes of the driver calls `getConnectionString` can make in
persistent mode, plus whether the `Math.random() < CLEANUP_PROBABILITY`
draw fires. -/
structure ResolveOutcome where
  findThrows : Bool
  deleteThrows : Bool
  updateThrows : Bool
  cleanupFires : Bool
  cleanupThrows : Bool
deriving DecidableEq, Repr

/-- `getConnectionString(sessionId)`: `sid? = none` models a falsy
`sessionId` argument.  Persistent path: `findOne`, lazy-expiry check with
`deleteOne`, sliding `updateOne { lastAccessed: now }`, probabilistic
`performCleanup()`, return `connStr`.  Any throw lands in the catch, which
answers straight from `memoryStore` (no expiry check, no update).  Fallback
path: same algorithm on `memoryStore`, with the time-based memory cleanup.
-/
def getConnectionString (st : SessionDBState) (sid? : Option SessionId)
    (now : Nat) (initOc : InitOutcome) (oc : ResolveOutcome) :
    Option String × SessionDBState :=
  match sid? with
  | none => (none, st)
  | some sid =>
    let (coll, st) := initSessionDB st initOc
    match coll with
    | some _ =>
      if oc.findThrows then
        ((mget st.memoryStore sid).map (·.connStr), st)
      else
        match mget st.dbStore sid with
        | none => (none, st)
        | some r =>
          if expired now r.lastAccessed then
            if oc.deleteThrows then
              ((mget st.memoryStore sid).map (·.connStr), st)
            else
              (none, { st with dbStore := merase st.dbStore sid })
          else
            if oc.updateThrows then
              ((mget st.memoryStore sid).map (·.connStr), st)
            else
              let st :=
                { st with
                  dbStore := mset st.dbStore sid { r with lastAccessed := now } }
              let st :=
                if oc.cleanupFires then
                  performCleanup st now initOc oc.cleanupThrows
                else st
              (some r.connStr, st)
    | none =>
      match mget st.memoryStore sid with
      | none => (none, st)
      | some r =>
        if expired now r.lastAccessed then
          (none, { st with memoryStore := merase st.memoryStore sid })
        else
          let st :=
            { st with
              memoryStore := mset st.memoryStore sid { r with lastAccessed := now } }
          let st :=
            if 5 * 60 * 1000 < now - st.lastCleanupTime then
              cleanupMemoryStore st now
            else st
          (some r.connStr, st)

/-- `deleteSession(sessionId)`: `deleteOne` in persistent mode
(`deleteThrows` is its outcome; a throw is caught and serviced by
`memoryStore.delete`), `memoryStore.delete` otherwise.  Returns whether a
record was deleted. -/
def deleteSession (st : SessionDBState) (sid : SessionId)
    (initOc : InitOutcome) (deleteThrows : Bool) : Bool × SessionDBState :=
  let (coll, st) := initSessionDB st initOc
  match coll with
  | some _ =>
    if deleteThrows then
      ((mget st.memoryStore sid).isSome,
       { st with memoryStore := merase st.memoryStore sid })
    else
      ((mget st.dbStore sid).isSome,
       { st with dbStore := merase st.dbStore sid })
  | none =>
    ((mget st.memoryStore sid).isSome,
     { st with memoryStore := merase st.memoryStore sid })

/-- The store's committed fallback mode: the init attempt ran, failed at
`connect()`, and no collection is cached. -/
def fallbackMode (st : SessionDBState) : Prop :=
  st.dbInitAttempted = true ∧ st.dbAvailable = false ∧ st.hasCollection = false

/-- The store's committed persistent mode: the collection is cached. -/
def persistentMode (st : SessionDBState) : Prop :=
  st.hasCollection = true

/-- The backend a lookup consults in the given state. -/
def activeStore (st : SessionDBState) : List (SessionId × SessionRecord) :=
  if st.hasCollection then st.dbStore else st.memoryStore

/-- States in which `initSessionDB` no longer mutates the mode flags:
either the collection is cached, or the one attempt already failed. -/
def modeFixed (st : SessionDBState) : Prop :=
  st.hasCollection = true ∨
    (st.dbInitAttempted = true ∧ st.dbAvailable = false)

/-- One session-store operation together with all of its per-call driver
outcomes, for stating whole-lifetime invariants. -/
inductive SessionOp where
  | create (sid : SessionId) (connStr : String) (now : Nat)
      (initOc : InitOutcome) (insertOk : Bool)
  | resolve (sid? : Option SessionId) (now : Nat) (initOc : InitOutcome)
      (oc : ResolveOutcome)
  | del (sid : SessionId) (initOc : InitOutcome) (deleteThrows : Bool)
  | cleanup (now : Nat) (initOc : InitOutcome) (cleanupThrows : Bool)

def applyOp (st : SessionDBState) : SessionOp → SessionDBState
  | .create sid connStr now initOc insertOk =>
    (createSession st sid connStr now initOc insertOk).2
  | .resolve sid? now initOc oc => (getConnectionString st sid? now initOc oc).2
  | .del sid initOc deleteThrows => (deleteSession st sid initOc deleteThrows).2
  | .cleanup now initOc cleanupThrows =>
    performCleanup st now initOc cleanupThrows

def applyOps (st : SessionDBState) (ops : List SessionOp) : SessionDBState :=
  ops.foldl applyOp st

/-! ## Standalone in-memory session manager — `src/config/sessionManager.js`

The only module with a `MAX_SESSIONS` capacity bound.  `createSession`
evicts `Array.from(sessions.entries()).sort((a, b) => a[1].lastAccessed -
b[1].lastAccessed)[0]` — the head of a stable ascending sort, i.e. the
first-inserted entry among those with minimal `lastAccessed` — before
inserting once `sessions.size >= MAX_SESSIONS`. -/

def MAX_SESSIONS : Nat := 10000

/-- One comparison step of the ascending stable sort by `lastAccessed`:
keep `best` unless `p` was accessed strictly less recently. -/
def pickOlder (best p : SessionId × SessionRecord) : SessionId × SessionRecord :=
  if p.2.lastAccessed < best.2.lastAccessed then p else best

/-- Head of the stable sort of the entries by ascending `lastAccessed`:
the earliest-inserted entry with minimal `lastAccessed`. -/
def oldestSession (s : List (SessionId × SessionRecord)) :
    Option (SessionId × SessionRecord) :=
  match s with
  | [] => none
  | e :: rest => some (rest.foldl pickOlder e)

/-- `createSession(connStr)` of the standalone manager (`sid` stands for
the generated uuid). -/
def smCreateSession (s : List (SessionId × SessionRecord)) (sid : SessionId)
    (connStr : String) (now : Nat) : List (SessionId × SessionRecord) :=
  let s1 :=
    if MAX_SESSIONS ≤ s.length then
      match oldestSession s with
      | some e => merase s e.1
      | none => s
    else s
  mset s1 sid ⟨connStr, now, now⟩

/-! ## Concrete states used by counterexamples and witnesses -/

/-- An in-memory session map holding `MAX_SESSIONS` records with distinct
ids `0 .. MAX_SESSIONS - 1`, record `n` last accessed at time `n`. -/
def fullStore : List (SessionId × SessionRecord) :=
  (List.range MAX_SESSIONS).map fun n => (n, ⟨"mongodb://c", 0, n⟩)

/-- The dual-backend store committed to fallback mode (the one `connect()`
attempt failed) with a full in-memory map. -/
def c1State : SessionDBState :=
  { dbStore := [], memoryStore := fullStore, dbInitAttempted := true,
    dbAvailable := false, hasCollection := false, lastCleanupTime := 0 }

/-- The dual-backend store before its first operation. -/
def freshState : SessionDBState :=
  { dbStore := [], memoryStore := [], dbInitAttempted := false,
    dbAvailable := false, hasCollection := false, lastCleanupTime := 0 }

/-- A pool holding two entries, both last used at time 0. -/
def c4State : PoolState :=
  { clients := [("k1", ⟨0, 0, 0⟩), ("k2", ⟨1, 0, 0⟩)],
    nextClientId := 2, connectAttempts := 2 }

/-- A small fallback-mode store with one stored session, for witnesses. -/
def smallFallbackState : SessionDBState :=
  { dbStore := [], memoryStore := [(1, ⟨"mongodb://m", 10, 10⟩)],
    dbInitAttempted := true, dbAvailable := false, hasCollection := false,
    lastCleanupTime := 0 }

/-- A small persistent-mode store: one session in the collection and one
(expired, emergency-created) session only in the in-memory map. -/
def smallPersistentState : SessionDBState :=
  { dbStore := [(1, ⟨"mongodb://d", 10, 10⟩)],
    memoryStore := [(2, ⟨"mongodb://m", 0, 0⟩)],
    dbInitAttempted := true, dbAvailable := true, hasCollection := true,
    lastCleanupTime := 0 }

section MapLemmas

variable {κ α : Type} [DecidableEq κ]

theorem mget_mset_self (s : List (κ × α)) (k : κ) (v : α) :
    mget (mset s k v) k = some v := by
  induction s with
  | nil => simp [mset, mget]
  | cons hd tl ih =>
    obtain ⟨k', v'⟩ := hd
    by_cases h : k' = k <;> simp [mset, mget, h, ih]

theorem mget_mset_ne (s : List (κ × α)) {k k' : κ} (v : α) (h : k' ≠ k) :
    mget (mset s k v) k' = mget s k' := by
  induction s with
  | nil => simp [mset, mget, Ne.symm h]
  | cons hd tl ih =>
    obtain ⟨k₀, v₀⟩ := hd
    by_cases h0 : k₀ = k
    · subst h0
      simp [mset, mget, Ne.symm h]
    · simp [mset, mget, h0, ih]

theorem mget_merase_ne (s : List (κ × α)) {k k' : κ} (h : k' ≠ k) :
    mget (merase s k) k' = mget s k' := by
  induction s with
  | nil => simp [merase]
  | cons hd tl ih =>
    obtain ⟨k₀, v₀⟩ := hd
    by_cases h0 : k₀ = k
    · subst h0
      simp [merase, mget, Ne.symm h]
    · simp [merase, mget, h0, ih]

theorem mget_eq_none_iff (s : List (κ × α)) (k : κ) :
    mget s k = none ↔ k ∉ keysOf s := by
  induction s with
  | nil => simp [mget, keysOf]
  | cons hd tl ih =>
    obtain ⟨k₀, v₀⟩ := hd
    by_cases h0 : k₀ = k
    · subst h0
      simp [mget, keysOf]
    · simp only [mget, if_neg h0, ih, keysOf, List.map_cons, List.mem_cons]
      constructor
      · intro hk h'
        rcases h' with h' | h'
        · exact h0 h'.symm
        · exact hk h'
      · intro hk h'
        exact hk (Or.inr h')

theorem mget_merase_self (s : List (κ × α)) (k : κ)
    (hnd : (keysOf s).Nodup) : mget (merase s k) k = none := by
  induction s with
  | nil => simp [merase, mget]
  | cons hd tl ih =>
    obtain ⟨k₀, v₀⟩ := hd
    simp only [keysOf, List.map_cons, List.nodup_cons] at hnd
    by_cases h0 : k₀ = k
    · subst h0
      simpa [merase, mget_eq_none_iff, keysOf] using hnd.1
    · simp [merase, mget, h0, ih hnd.2]

theorem length_mset_of_none (s : List (κ × α)) (k : κ) (v : α)
    (h : mget s k = none) : (mset s k v).length = s.length + 1 := by
  induction s with
  | nil => simp [mset]
  | cons hd tl ih =>
    obtain ⟨k₀, v₀⟩ := hd
    by_cases h0 : k₀ = k
    · simp [mget, h0] at h
    · simp only [mget, h0, if_false, if_neg h0] at h ⊢
      simp [mset, h0, ih h]

theorem length_merase_of_some (s : List (κ × α)) (k : κ) {v : α}
    (h : mget s k = some v) : s.length = (merase s k).length + 1 := by
  induction s with
  | nil => simp [mget] at h
  | cons hd tl ih =>
    obtain ⟨k₀, v₀⟩ := hd
    by_cases h0 : k₀ = k
    · simp [merase, h0]
    · simp only [mget, h0, if_neg h0] at h
      simp [merase, h0, ih h]

theorem mget_of_mem (s : List (κ × α)) {k : κ} {v : α}
    (hnd : (keysOf s).Nodup) (hm : (k, v) ∈ s) : mget s k = some v := by
  induction s with
  | nil => simp at hm
  | cons hd tl ih =>
    obtain ⟨k₀, v₀⟩ := hd
    simp only [keysOf, List.map_cons, List.nodup_cons] at hnd
    rcases List.mem_cons.mp hm with h | h
    · injection h with h1 h2
      subst h1
      subst h2
      simp [mget]
    · have hk : k₀ ≠ k := by
        intro he
        subst he
        exact hnd.1 (List.mem_map.mpr ⟨(k₀, v), h, rfl⟩)
      simp [mget, hk, ih hnd.2 h]

theorem mem_of_mget_some (s : List (κ × α)) {k : κ} {v : α}
    (h : mget s k = some v) : (k, v) ∈ s := by
  induction s with
  | nil => simp [mget] at h
  | cons hd tl ih =>
    obtain ⟨k₀, v₀⟩ := hd
    by_cases h0 : k₀ = k
    · subst h0
      simp [mget] at h
      subst h
      exact List.mem_cons_self _ _
    · simp only [mget, if_neg h0] at h
      exact List.mem_cons_of_mem _ (ih h)

theorem keysOf_mset_of_some (s : List (κ × α)) (k : κ) (v : α) {w : α}
    (h : mget s k = some w) : keysOf (mset s k v) = keysOf s := by
  induction s with
  | nil => simp [mget] at h
  | cons hd tl ih =>
    obtain ⟨k₀, v₀⟩ := hd
    by_cases h0 : k₀ = k
    · simp [mset, h0, keysOf]
    · simp only [mget, if_neg h0] at h
      simp [mset, h0, keysOf] at ih ⊢
      exact ih h

theorem keysOf_merase_sublist (s : List (κ × α)) (k : κ) :
    (keysOf (merase s k)).Sublist (keysOf s) := by
  induction s with
  | nil => simp [merase]
  | cons hd tl ih =>
    obtain ⟨k₀, v₀⟩ := hd
    by_cases h0 : k₀ = k
    · simp only [merase, if_pos h0, keysOf, List.map_cons]
      exact (List.Sublist.refl _).cons _
    · simp only [merase, if_neg h0, keysOf, List.map_cons]
      exact List.Sublist.cons₂ _ ih

theorem mget_filter (s : List (κ × α)) (p : κ × α → Bool) (k : κ)
    (hnd : (keysOf s).Nodup) :
    mget (s.filter p) k =
      match mget s k with
      | some v => if p (k, v) then some v else none
      | none => none := by
  induction s with
  | nil => simp [mget]
  | cons hd tl ih =>
    obtain ⟨k₀, v₀⟩ := hd
    simp only [keysOf, List.map_cons, List.nodup_cons] at hnd
    by_cases h0 : k₀ = k
    · subst h0
      have htl : mget tl k₀ = none := by
        rw [mget_eq_none_iff]
        exact hnd.1
      by_cases hp : p (k₀, v₀) <;>
        simp [List.filter_cons, hp, mget, ih hnd.2, htl]
    · by_cases hp : p (k₀, v₀) <;>
        simp [List.filter_cons, hp, mget, h0, ih hnd.2]

end MapLemmas

theorem mget_foldl_erase {κ α : Type} [DecidableEq κ]
    (ks : List κ) (s : List (κ × α)) (f : κ → Bool) (k : κ)
    (hnd : (keysOf s).Nodup) :
    mget (ks.foldl (fun m k' => if f k' then m else merase m k') s) k =
      if k ∈ ks ∧ f k = false then none else mget s k := by
  induction ks generalizing s with
  | nil => simp
  | cons k' rest ih =>
    have hnd' : (keysOf (if f k' then s else merase s k')).Nodup := by
      by_cases hf : f k'
      · simpa [hf] using hnd
      · simp only [hf, if_neg, Bool.false_eq_true, if_false]
        exact List.Nodup.sublist (keysOf_merase_sublist s k') hnd
    have step :
        (k' :: rest).foldl (fun m k'' => if f k'' then m else merase m k'') s =
          rest.foldl (fun m k'' => if f k'' then m else merase m k'')
            (if f k' then s else merase s k') := by
      simp [List.foldl_cons]
    rw [step, ih _ hnd']
    by_cases hr : k ∈ rest ∧ f k = false
    · simp [hr, List.mem_cons, hr.1, hr.2]
    · simp only [hr, if_neg, if_false]
      by_cases hk : k = k'
      · subst hk
        by_cases hfk : f k
        · simp [hfk]
        · simp only [Bool.not_eq_true] at hfk
          simp [hfk, mget_merase_self s k hnd, List.mem_cons]
      · have : ¬(k ∈ k' :: rest ∧ f k = false) := by
          intro hc
          rcases List.mem_cons.mp hc.1 with h | h
          · exact hk h
          · exact hr ⟨h, hc.2⟩
        simp only [this, if_neg, if_false]
        by_cases hf : f k'
        · simp [hf]
        · simp only [Bool.not_eq_true] at hf
          simp [hf, mget_merase_ne s hk]

theorem pickOlder_foldl_mem (rest : List (SessionId × SessionRecord))
    (e : SessionId × SessionRecord) :
    rest.foldl pickOlder e = e ∨ rest.foldl pickOlder e ∈ rest := by
  induction rest generalizing e with
  | nil => simp
  | cons q rest ih =>
    rcases ih (pickOlder e q) with h | h
    · rw [List.foldl_cons]
      by_cases hq : q.2.lastAccessed < e.2.lastAccessed
      · right
        rw [h]
        simp [pickOlder, hq]
      · left
        rw [h]
        simp [pickOlder, hq]
    · right
      rw [List.foldl_cons]
      exact List.mem_cons_of_mem _ h

theorem pickOlder_foldl_min (rest : List (SessionId × SessionRecord))
    (e : SessionId × SessionRecord) :
    (rest.foldl pickOlder e).2.lastAccessed ≤ e.2.lastAccessed ∧
      ∀ p ∈ rest, (rest.foldl pickOlder e).2.lastAccessed ≤ p.2.lastAccessed := by
  induction rest generalizing e with
  | nil => simp
  | cons q rest ih =>
    obtain ⟨ih1, ih2⟩ := ih (pickOlder e q)
    have hle : (pickOlder e q).2.lastAccessed ≤ e.2.lastAccessed ∧
        (pickOlder e q).2.lastAccessed ≤ q.2.lastAccessed := by
      by_cases hq : q.2.lastAccessed < e.2.lastAccessed
      · simp [pickOlder, hq, Nat.le_of_lt hq]
      · simp [pickOlder, hq, Nat.le_of_not_lt hq]
    constructor
    · rw [List.foldl_cons]
      exact le_trans ih1 hle.1
    · intro p hp
      rcases List.mem_cons.mp hp with h | h
      · subst h
        rw [List.foldl_cons]
        exact le_trans ih1 hle.2
      · rw [List.foldl_cons]
        exact ih2 p h

theorem oldestSession_mem {s : List (SessionId × SessionRecord)}
    {e : SessionId × SessionRecord} (h : oldestSession s = some e) : e ∈ s := by
  cases s with
  | nil => simp [oldestSession] at h
  | cons hd tl =>
    simp only [oldestSession, Option.some.injEq] at h
    rcases pickOlder_foldl_mem tl hd with h' | h'
    · rw [h] at h'
      rw [h']
      exact List.mem_cons_self _ _
    · rw [h] at h'
      exact List.mem_cons_of_mem _ h'

theorem oldestSession_min {s : List (SessionId × SessionRecord)}
    {e : SessionId × SessionRecord} (h : oldestSession s = some e) :
    ∀ p ∈ s, e.2.lastAccessed ≤ p.2.lastAccessed := by
  cases s with
  | nil => simp [oldestSession] at h
  | cons hd tl =>
    simp only [oldestSession, Option.some.injEq] at h
    intro p hp
    rw [← h]
    rcases List.mem_cons.mp hp with h' | h'
    · rw [h']
      exact (pickOlder_foldl_min tl hd).1
    · exact (pickOlder_foldl_min tl hd).2 p h'

theorem initSessionDB_persistent (st : SessionDBState) (oc : InitOutcome)
    (h : st.hasCollection = true) : initSessionDB st oc = (some (), st) := by
  simp [initSessionDB, h]

theorem initSessionDB_fallback (st : SessionDBState) (oc : InitOutcome)
    (h : fallbackMode st) : initSessionDB st oc = (none, st) := by
  obtain ⟨h1, h2, h3⟩ := h
  simp [initSessionDB, h1, h2, h3]

theorem expired_self (now : Nat) : expired now now = false := by
  simp [expired, Nat.sub_self]

theorem expired_ninety_percent (la : Nat) :
    expired (la + 9 * SESSION_TIMEOUT / 10) la = false := by
  simp only [expired, Nat.add_sub_cancel_left, decide_eq_false_iff_not, not_lt]
  decide

theorem keysOf_fullStore : keysOf fullStore = List.range MAX_SESSIONS := by
  unfold keysOf fullStore
  rw [List.map_map]
  have h : (Prod.fst ∘ fun n : Nat =>
      (n, ({connStr := "mongodb://c", createdAt := 0,
            lastAccessed := n} : SessionRecord))) = id := by
    funext n
    rfl
  rw [h, List.map_id]

theorem mget_fullStore_top : mget fullStore MAX_SESSIONS = none := by
  rw [mget_eq_none_iff, keysOf_fullStore]
  simp [List.mem_range]

theorem length_fullStore : fullStore.length = MAX_SESSIONS := by
  simp [fullStore]

/-- A record freshly stamped `lastAccessed = now` survives an expiry sweep
run at `now`. -/
theorem mget_filter_fresh (s : List (SessionId × SessionRecord))
    (sid : SessionId) (r : SessionRecord) (now : Nat)
    (hnd : (keysOf s).Nodup) (hget : mget s sid = some r) :
    mget ((mset s sid { r with lastAccessed := now }).filter
        (fun e => !expired now e.2.lastAccessed)) sid
      = some { r with lastAccessed := now } := by
  have hnd' : (keysOf (mset s sid { r with lastAccessed := now })).Nodup := by
    rw [keysOf_mset_of_some s sid _ hget]
    exact hnd
  rw [mget_filter _ _ _ hnd', mget_mset_self]
  simp [expired_self]

/-! ## Claim theorems -/

/-- C8: when `acquire(descriptor)` fails to open a new connection, the error
carrying the upstream cause is propagated to the caller with no internal
retry (exactly one connect attempt), and the pool map is left unchanged: no
entry is inserted for that fingerprint. -/
theorem C8_connect_failure_propagates (hash : String → String)
    (st : PoolState) (connStr : String) (now : Nat) (pingOk : Bool)
    (cause : String) (hmiss : mget st.clients (hash connStr) = none) :
    (getMongoClient hash st connStr now pingOk false cause).1 = .err cause
    ∧ (getMongoClient hash st connStr now pingOk false cause).2.clients
        = st.clients
    ∧ (getMongoClient hash st connStr now pingOk false cause).2.connectAttempts
        = st.connectAttempts + 1 := by
  simp [getMongoClient, hmiss, beginConnect, connectResolve]

/-- Witness for C8: a failing connect on an empty pool returns the cause,
inserts nothing and makes exactly one attempt. -/
theorem C8_witness :
    (getMongoClient id ⟨[], 0, 0⟩ "mongodb://u" 4 true false "ECONNREFUSED").1
        = .err "ECONNREFUSED"
    ∧ (getMongoClient id ⟨[], 0, 0⟩ "mongodb://u" 4 true false
        "ECONNREFUSED").2.clients = ([] : List (String × PoolEntry))
    ∧ (getMongoClient id ⟨[], 0, 0⟩ "mongodb://u" 4 true false
        "ECONNREFUSED").2.connectAttempts = 0 + 1 :=
  C8_connect_failure_propagates id ⟨[], 0, 0⟩ "mongodb://u" 4 true
    "ECONNREFUSED" rfl

/-- C7: a sequential `acquire` on an already-pooled fingerprint probes the
pooled handle.  Probe success: the same handle is returned, `lastUsed` is
refreshed, and no connection is created (the attempt counter is unchanged).
Probe failure with a successful reconnect: the old entry is replaced by a
freshly connected one, the result is that fresh handle — never the probe
error — and one connect attempt is made. -/
theorem C7_acquire_pooled (hash : String → String) (st : PoolState)
    (connStr : String) (now : Nat) (cause : String) (e : PoolEntry)
    (hhit : mget st.clients (hash connStr) = some e)
    (hwf : ∀ p ∈ st.clients, p.2.clientId < st.nextClientId) :
    (getMongoClient hash st connStr now true true cause).1 = .ok e.clientId
    ∧ (getMongoClient hash st connStr now true true cause).2.connectAttempts
        = st.connectAttempts
    ∧ mget (getMongoClient hash st connStr now true true cause).2.clients
        (hash connStr) = some { e with lastUsed := now }
    ∧ (getMongoClient hash st connStr now false true cause).1
        = .ok st.nextClientId
    ∧ e.clientId ≠ st.nextClientId
    ∧ mget (getMongoClient hash st connStr now false true cause).2.clients
        (hash connStr) = some ⟨st.nextClientId, now, now⟩
    ∧ (getMongoClient hash st connStr now false true cause).2.connectAttempts
        = st.connectAttempts + 1 := by
  have hfresh : e.clientId ≠ st.nextClientId :=
    Nat.ne_of_lt (hwf _ (mem_of_mget_some st.clients hhit))
  refine ⟨?_, ?_, ?_, ?_, hfresh, ?_, ?_⟩ <;>
    simp [getMongoClient, hhit, beginConnect, connectResolve, mget_mset_self]

/-- Witness for C7 at a one-entry pool. -/
theorem C7_witness :
    (getMongoClient id ⟨[("mongodb://u", ⟨0, 1, 1⟩)], 1, 1⟩ "mongodb://u" 9
        true true "boom").1 = .ok 0
    ∧ (getMongoClient id ⟨[("mongodb://u", ⟨0, 1, 1⟩)], 1, 1⟩ "mongodb://u" 9
        true true "boom").2.connectAttempts = 1
    ∧ mget (getMongoClient id ⟨[("mongodb://u", ⟨0, 1, 1⟩)], 1, 1⟩
        "mongodb://u" 9 true true "boom").2.clients "mongodb://u"
        = some ⟨0, 1, 9⟩
    ∧ (getMongoClient id ⟨[("mongodb://u", ⟨0, 1, 1⟩)], 1, 1⟩ "mongodb://u" 9
        false true "boom").1 = .ok 1
    ∧ (0 : Nat) ≠ 1
    ∧ mget (getMongoClient id ⟨[("mongodb://u", ⟨0, 1, 1⟩)], 1, 1⟩
        "mongodb://u" 9 false true "boom").2.clients "mongodb://u"
        = some ⟨1, 9, 9⟩
    ∧ (getMongoClient id ⟨[("mongodb://u", ⟨0, 1, 1⟩)], 1, 1⟩ "mongodb://u" 9
        false true "boom").2.connectAttempts = 1 + 1 :=
  C7_acquire_pooled id ⟨[("mongodb://u", ⟨0, 1, 1⟩)], 1, 1⟩ "mongodb://u" 9
    "boom" ⟨0, 1, 1⟩ rfl (by decide)

/-- C2: entry creation is NOT serialized per fingerprint.  Evaluating the
event-loop interleaving in which two concurrent `acquire` calls for a
previously-unpooled fingerprint both pass the `clients.has` check before
either `connect()` resolves: both connects happen (the connect-attempt
counter ends at 2, not 1), the callers receive two distinct handles, and
the second insertion overwrites the first entry, leaking the first handle.
-/
theorem C2_failing_eval :
    twoConcurrentAcquires id ⟨[], 0, 0⟩ "mongodb://u" 3 =
      some ((.ok 0, .ok 1), ⟨[("mongodb://u", ⟨1, 3, 3⟩)], 2, 2⟩) := by
  rfl

/-- C4 counterexample: with both pooled entries idle past
`CLIENT_IDLE_TIMEOUT` and the close of `"k1"` throwing, the sweep removes
only `"k2"`; `"k1"` is still pooled and still listed by
`getActiveConnections`, contradicting "every idle entry has been closed and
removed". -/
theorem C4_counterexample :
    mget (cleanupIdleConnections c4State (CLIENT_IDLE_TIMEOUT + 1)
        (fun k => k == "k1")).clients "k1" = some ⟨0, 0, 0⟩
    ∧ mget (cleanupIdleConnections c4State (CLIENT_IDLE_TIMEOUT + 1)
        (fun k => k == "k1")).clients "k2" = none
    ∧ getActiveConnections
        (cleanupIdleConnections c4State (CLIENT_IDLE_TIMEOUT + 1)
          (fun k => k == "k1")) (CLIENT_IDLE_TIMEOUT + 1)
        = [⟨"k1...", 0, 0, CLIENT_IDLE_TIMEOUT + 1⟩] := by
  decide

/-- C4 amended: after the idle sweep, every entry whose idle time exceeded
the timeout AND whose close did not throw is removed (hence absent from
`listActive`); an idle entry whose close threw remains pooled unchanged —
but that failure never prevents the removal of the other idle entries —
and entries within the idle window are untouched. -/
theorem C4_sweep_amended (st : PoolState) (now : Nat)
    (closeFails : String → Bool) (hnd : (keysOf st.clients).Nodup) :
    (∀ k e, mget st.clients k = some e →
      CLIENT_IDLE_TIMEOUT < now - e.lastUsed → closeFails k = false →
      mget (cleanupIdleConnections st now closeFails).clients k = none)
    ∧ (∀ k e, mget st.clients k = some e →
      CLIENT_IDLE_TIMEOUT < now - e.lastUsed → closeFails k = true →
      mget (cleanupIdleConnections st now closeFails).clients k = some e)
    ∧ (∀ k e, mget st.clients k = some e →
      ¬(CLIENT_IDLE_TIMEOUT < now - e.lastUsed) →
      mget (cleanupIdleConnections st now closeFails).clients k = some e) := by
  have hbase : ∀ k : String,
      mget (cleanupIdleConnections st now closeFails).clients k =
        if k ∈ keysOf (st.clients.filter fun e =>
              decide (CLIENT_IDLE_TIMEOUT < now - e.2.lastUsed))
            ∧ closeFails k = false
        then none else mget st.clients k := by
    intro k
    exact mget_foldl_erase _ st.clients closeFails k hnd
  refine ⟨?_, ?_, ?_⟩
  · intro k e hk hidle hclose
    rw [hbase k]
    have hmem : k ∈ keysOf (st.clients.filter fun e =>
        decide (CLIENT_IDLE_TIMEOUT < now - e.2.lastUsed)) := by
      refine List.mem_map.mpr ⟨(k, e), ?_, rfl⟩
      refine List.mem_filter.mpr ⟨mem_of_mget_some _ hk, ?_⟩
      simpa using hidle
    simp [hmem, hclose]
  · intro k e hk hidle hclose
    rw [hbase k]
    simp [hclose, hk]
  · intro k e hk hidle
    rw [hbase k]
    have hnmem : k ∉ keysOf (st.clients.filter fun e =>
        decide (CLIENT_IDLE_TIMEOUT < now - e.2.lastUsed)) := by
      intro hmem
      obtain ⟨⟨k', e'⟩, hin, hfst⟩ := List.mem_map.mp hmem
      simp only at hfst
      subst hfst
      obtain ⟨hin', hp⟩ := List.mem_filter.mp hin
      have hsame := mget_of_mem st.clients hnd hin'
      rw [hk] at hsame
      injection hsame with he
      subst he
      exact hidle (by simpa using hp)
    simp [hnmem, hk]

/-- Witness for C4 amended, at the two-entry pool of the counterexample. -/
theorem C4_amended_witness :
    mget (cleanupIdleConnections c4State (CLIENT_IDLE_TIMEOUT + 1)
        (fun k => k == "k1")).clients "k2" = none :=
  (C4_sweep_amended c4State (CLIENT_IDLE_TIMEOUT + 1) (fun k => k == "k1")
      (by decide)).1 "k2" ⟨1, 0, 0⟩ (by decide) (by decide) (by decide)

/-- C6: `createSession` always returns the generated token, in every state
and under every driver outcome — including a throwing `insertOne`, which the
emergency catch services from the in-memory map — and the record ends up in
one of the two backends.  The model is a total function: no storage-layer
error ever escapes to the caller. -/
theorem C6_create_never_fails (st : SessionDBState) (sid : SessionId)
    (connStr : String) (now : Nat) (initOc : InitOutcome) (insertOk : Bool) :
    (createSession st sid connStr now initOc insertOk).1 = sid
    ∧ (mget (createSession st sid connStr now initOc insertOk).2.dbStore sid
        = some ⟨connStr, now, now⟩
      ∨ mget (createSession st sid connStr now initOc insertOk).2.memoryStore
          sid = some ⟨connStr, now, now⟩) := by
  rcases hinit : initSessionDB st initOc with ⟨coll, st'⟩
  cases coll with
  | none => simp [createSession, hinit, mget_mset_self]
  | some u =>
    cases insertOk <;> simp [createSession, hinit, mget_mset_self]

/-- C10: when the persistent-mode lookup throws, the catch handler answers
from the in-memory map whenever it holds the id — for EVERY `now`, with no
expiry check — and leaves the state untouched, so `lastAccessed` is not
updated and an arbitrarily long-expired in-memory record is still served. -/
theorem C10_catch_ignores_expiry (st : SessionDBState) (sid : SessionId)
    (now : Nat) (initOc : InitOutcome) (oc : ResolveOutcome)
    (r : SessionRecord) (hp : persistentMode st)
    (hthrow : oc.findThrows = true)
    (hmem : mget st.memoryStore sid = some r) :
    getConnectionString st (some sid) now initOc oc = (some r.connStr, st) := by
  simp [getConnectionString, initSessionDB_persistent st initOc hp, hthrow,
    hmem]

/-- Witness for C10: a record expired for almost a full window beyond the
timeout is still returned by the catch path, and the state is unchanged. -/
theorem C10_witness :
    getConnectionString smallPersistentState (some 2) (3 * SESSION_TIMEOUT)
        .ok ⟨true, false, false, false, false⟩
      = (some "mongodb://m", smallPersistentState)
    ∧ expired (3 * SESSION_TIMEOUT) 0 = true :=
  ⟨C10_catch_ignores_expiry smallPersistentState 2 (3 * SESSION_TIMEOUT) .ok
      ⟨true, false, false, false, false⟩ ⟨"mongodb://m", 0, 0⟩ rfl rfl rfl,
    by decide⟩

/-- C9: a session created through the emergency catch (persistent mode,
`insertOne` throws) lands only in the in-memory map; every later
`getConnectionString` whose persistent lookup answers without error consults
only the collection and misses it, and the in-memory copy is served only on
calls whose lookup throws. -/
theorem C9_emergency_record_invisible (st : SessionDBState) (sid : SessionId)
    (connStr : String) (now : Nat) (initOc : InitOutcome)
    (hp : persistentMode st) :
    ((createSession st sid connStr now initOc false).2.dbStore = st.dbStore
     ∧ mget (createSession st sid connStr now initOc false).2.memoryStore sid
        = some ⟨connStr, now, now⟩)
    ∧ (∀ (st' : SessionDBState) (now' : Nat) (initOc' : InitOutcome)
        (oc : ResolveOutcome), persistentMode st' → oc.findThrows = false →
        mget st'.dbStore sid = none →
        (getConnectionString st' (some sid) now' initOc' oc).1 = none)
    ∧ (∀ (st' : SessionDBState) (now' : Nat) (initOc' : InitOutcome)
        (oc : ResolveOutcome) (r : SessionRecord), persistentMode st' →
        oc.findThrows = true → mget st'.memoryStore sid = some r →
        (getConnectionString st' (some sid) now' initOc' oc).1
          = some r.connStr) := by
  refine ⟨?_, ?_, ?_⟩
  · have hinit := initSessionDB_persistent st initOc hp
    constructor <;> simp [createSession, hinit, mget_mset_self]
  · intro st' now' initOc' oc hp' hf hdb
    simp [getConnectionString, initSessionDB_persistent st' initOc' hp', hf,
      hdb]
  · intro st' now' initOc' oc r hp' hf hmem
    simp [getConnectionString, initSessionDB_persistent st' initOc' hp', hf,
      hmem]

/-- Witness for C9 at a concrete persistent-mode store: the emergency
record for id 2 is in memory only, a clean lookup misses it, a throwing
lookup serves it. -/
theorem C9_witness :
    ((createSession smallPersistentState 2 "mongodb://e" 12 .ok false).2.dbStore
        = smallPersistentState.dbStore
     ∧ mget (createSession smallPersistentState 2 "mongodb://e" 12 .ok
          false).2.memoryStore 2 = some ⟨"mongodb://e", 12, 12⟩)
    ∧ (getConnectionString smallPersistentState (some 2) 13 .ok
        ⟨false, false, false, false, false⟩).1 = none
    ∧ (getConnectionString smallPersistentState (some 2) 13 .ok
        ⟨true, false, false, false, false⟩).1 = some "mongodb://m" := by
  obtain ⟨h1, h2, h3⟩ :=
    C9_emergency_record_invisible smallPersistentState 2 "mongodb://e" 12 .ok
      rfl
  exact ⟨h1,
    h2 smallPersistentState 13 .ok ⟨false, false, false, false, false⟩ rfl rfl
      rfl,
    h3 smallPersistentState 13 .ok ⟨true, false, false, false, false⟩
      ⟨"mongodb://m", 0, 0⟩ rfl rfl rfl⟩

/-- C1 counterexample: the dual-backend store's fallback-mode
`createSession` has no capacity check at all — inserting into a map already
holding `MAX_SESSIONS` records evicts nothing and grows the map to
`MAX_SESSIONS + 1`, contradicting "the map size never exceeds the maximum".
-/
theorem C1_counterexample :
    (createSession c1State MAX_SESSIONS "mongodb://new" 7 .connectFails
        true).2.memoryStore.length = MAX_SESSIONS + 1 := by
  have hinit : initSessionDB c1State .connectFails = (none, c1State) :=
    initSessionDB_fallback c1State .connectFails ⟨rfl, rfl, rfl⟩
  have hmem : c1State.memoryStore = fullStore := by
    simp only [c1State]
  simp only [createSession, hinit]
  rw [hmem, length_mset_of_none _ _ _ mget_fullStore_top, length_fullStore]

/-- C1 amended: the capacity-eviction behaviour lives in the standalone
in-memory session manager (`sessionManager.js`), not in the dual store's
fallback mode.  There, `createSession` on a map holding `MAX_SESSIONS`
records first evicts exactly the single record with the least-recent
`lastAccessed` — never a more recently accessed one — before inserting, so
that map's size never exceeds `MAX_SESSIONS`. -/
theorem C1_amended_lru_eviction (s : List (SessionId × SessionRecord))
    (sid : SessionId) (connStr : String) (now : Nat)
    (hlen : s.length = MAX_SESSIONS) (hnd : (keysOf s).Nodup)
    (hfresh : mget s sid = none) :
    ∃ e, oldestSession s = some e
      ∧ e ∈ s
      ∧ (∀ p ∈ s, e.2.lastAccessed ≤ p.2.lastAccessed)
      ∧ smCreateSession s sid connStr now
          = mset (merase s e.1) sid ⟨connStr, now, now⟩
      ∧ (smCreateSession s sid connStr now).length = MAX_SESSIONS := by
  cases hs : oldestSession s with
  | none =>
    cases s with
    | nil => simp [MAX_SESSIONS] at hlen
    | cons hd tl => simp [oldestSession] at hs
  | some e =>
    have hmem : e ∈ s := oldestSession_mem hs
    have hkey : mget s e.1 = some e.2 := by
      have : (e.1, e.2) ∈ s := by
        rw [Prod.mk.eta]
        exact hmem
      exact mget_of_mem s hnd this
    have hsidne : sid ≠ e.1 := by
      intro h
      rw [h, hkey] at hfresh
      cases hfresh
    have heq : smCreateSession s sid connStr now
        = mset (merase s e.1) sid ⟨connStr, now, now⟩ := by
      simp [smCreateSession, hlen, hs]
    have hnone : mget (merase s e.1) sid = none := by
      rw [mget_merase_ne s hsidne]
      exact hfresh
    have hlen2 : (smCreateSession s sid connStr now).length = MAX_SESSIONS := by
      rw [heq, length_mset_of_none _ _ _ hnone]
      have := length_merase_of_some s e.1 hkey
      omega
    exact ⟨e, rfl, hmem, oldestSession_min hs, heq, hlen2⟩

/-- Witness for C1 amended at a full map with distinct access times. -/
theorem C1_amended_witness :
    ∃ e, oldestSession fullStore = some e
      ∧ e ∈ fullStore
      ∧ (∀ p ∈ fullStore, e.2.lastAccessed ≤ p.2.lastAccessed)
      ∧ smCreateSession fullStore MAX_SESSIONS "mongodb://w" 9
          = mset (merase fullStore e.1) MAX_SESSIONS ⟨"mongodb://w", 9, 9⟩
      ∧ (smCreateSession fullStore MAX_SESSIONS "mongodb://w" 9).length
          = MAX_SESSIONS :=
  C1_amended_lru_eviction fullStore MAX_SESSIONS "mongodb://w" 9
    length_fullStore
    (by rw [keysOf_fullStore]; exact List.nodup_range MAX_SESSIONS)
    mget_fullStore_top

/-- C3: for a stored session, `getConnectionString` is a sliding-window
lookup in whichever backend is active: past the window the record is
deleted and not-found returned; inside the window `lastAccessed` is set to
`now` and the descriptor returned — hence a re-resolve at 90% of the
timeout always succeeds.  Holds in persistent mode (with the backend
answering without error) and in fallback mode alike. -/
theorem C3_resolve_sliding_window (st : SessionDBState) (sid : SessionId)
    (r : SessionRecord) (now : Nat) (initOc : InitOutcome)
    (oc : ResolveOutcome) (hmode : persistentMode st ∨ fallbackMode st)
    (hf : oc.findThrows = false) (hdel : oc.deleteThrows = false)
    (hup : oc.updateThrows = false)
    (hget : mget (activeStore st) sid = some r)
    (hnd : (keysOf (activeStore st)).Nodup) :
    (expired now r.lastAccessed = true →
      (getConnectionString st (some sid) now initOc oc).1 = none
      ∧ mget (activeStore (getConnectionString st (some sid) now initOc oc).2)
          sid = none)
    ∧ (expired now r.lastAccessed = false →
      (getConnectionString st (some sid) now initOc oc).1 = some r.connStr
      ∧ mget (activeStore (getConnectionString st (some sid) now initOc oc).2)
          sid = some { r with lastAccessed := now })
    ∧ (now = r.lastAccessed + 9 * SESSION_TIMEOUT / 10 →
      (getConnectionString st (some sid) now initOc oc).1
        = some r.connStr) := by
  have main : (expired now r.lastAccessed = true →
      (getConnectionString st (some sid) now initOc oc).1 = none
      ∧ mget (activeStore (getConnectionString st (some sid) now initOc oc).2)
          sid = none)
    ∧ (expired now r.lastAccessed = false →
      (getConnectionString st (some sid) now initOc oc).1 = some r.connStr
      ∧ mget (activeStore (getConnectionString st (some sid) now initOc oc).2)
          sid = some { r with lastAccessed := now }) := by
    rcases hmode with hp | hfb
    · have hpc : st.hasCollection = true := hp
      have hinit := initSessionDB_persistent st initOc hp
      have hact : activeStore st = st.dbStore := by
        simp [activeStore, hpc]
      rw [hact] at hget hnd
      constructor
      · intro hexp
        have hres : getConnectionString st (some sid) now initOc oc
            = (none, { st with dbStore := merase st.dbStore sid }) := by
          simp [getConnectionString, hinit, hf, hget, hexp, hdel]
        rw [hres]
        refine ⟨rfl, ?_⟩
        have hact2 : activeStore { st with dbStore := merase st.dbStore sid }
            = merase st.dbStore sid := by
          simp [activeStore, hpc]
        rw [hact2]
        exact mget_merase_self _ _ hnd
      · intro hexp
        have hst1 : initSessionDB
            { st with
              dbStore := mset st.dbStore sid { r with lastAccessed := now } }
            initOc
            = (some (),
               { st with
                 dbStore := mset st.dbStore sid
                   { r with lastAccessed := now } }) :=
          initSessionDB_persistent _ initOc hpc
        by_cases hcf : oc.cleanupFires
        · by_cases hct : oc.cleanupThrows
          · have hres : getConnectionString st (some sid) now initOc oc
                = (some r.connStr,
                   cleanupMemoryStore
                     { st with
                       dbStore := mset st.dbStore sid
                         { r with lastAccessed := now } }
                     now) := by
              simp [getConnectionString, hinit, hf, hget, hexp, hdel, hup,
                hcf, hct, performCleanup, hst1]
            rw [hres]
            refine ⟨rfl, ?_⟩
            have hact2 : activeStore (cleanupMemoryStore
                { st with
                  dbStore := mset st.dbStore sid
                    { r with lastAccessed := now } }
                now)
                = mset st.dbStore sid { r with lastAccessed := now } := by
              simp [activeStore, cleanupMemoryStore, hpc]
            rw [hact2]
            exact mget_mset_self _ _ _
          · have hres : getConnectionString st (some sid) now initOc oc
                = (some r.connStr,
                   { st with
                     dbStore :=
                       (mset st.dbStore sid
                         { r with lastAccessed := now }).filter
                         (fun e => !expired now e.2.lastAccessed) }) := by
              simp [getConnectionString, hinit, hf, hget, hexp, hdel, hup,
                hcf, hct, performCleanup, hst1]
            rw [hres]
            refine ⟨rfl, ?_⟩
            have hact2 : activeStore
                { st with
                  dbStore :=
                    (mset st.dbStore sid
                      { r with lastAccessed := now }).filter
                      (fun e => !expired now e.2.lastAccessed) }
                = (mset st.dbStore sid { r with lastAccessed := now }).filter
                    (fun e => !expired now e.2.lastAccessed) := by
              simp [activeStore, hpc]
            rw [hact2]
            exact mget_filter_fresh st.dbStore sid r now hnd hget
        · have hres : getConnectionString st (some sid) now initOc oc
              = (some r.connStr,
                 { st with
                   dbStore := mset st.dbStore sid
                     { r with lastAccessed := now } }) := by
            simp [getConnectionString, hinit, hf, hget, hexp, hdel, hup, hcf]
          rw [hres]
          refine ⟨rfl, ?_⟩
          have hact2 : activeStore
              { st with
                dbStore := mset st.dbStore sid
                  { r with lastAccessed := now } }
              = mset st.dbStore sid { r with lastAccessed := now } := by
            simp [activeStore, hpc]
          rw [hact2]
          exact mget_mset_self _ _ _
    · have hinit := initSessionDB_fallback st initOc hfb
      have hcoll : st.hasCollection = false := hfb.2.2
      have hact : activeStore st = st.memoryStore := by
        simp [activeStore, hcoll]
      rw [hact] at hget hnd
      constructor
      · intro hexp
        have hres : getConnectionString st (some sid) now initOc oc
            = (none,
               { st with memoryStore := merase st.memoryStore sid }) := by
          simp [getConnectionString, hinit, hget, hexp]
        rw [hres]
        refine ⟨rfl, ?_⟩
        have hact2 : activeStore
            { st with memoryStore := merase st.memoryStore sid }
            = merase st.memoryStore sid := by
          simp [activeStore, hcoll]
        rw [hact2]
        exact mget_merase_self _ _ hnd
      · intro hexp
        by_cases hcl : 5 * 60 * 1000 < now - st.lastCleanupTime
        · have hres : getConnectionString st (some sid) now initOc oc
              = (some r.connStr,
                 cleanupMemoryStore
                   { st with
                     memoryStore := mset st.memoryStore sid
                       { r with lastAccessed := now } }
                   now) := by
            simp [getConnectionString, hinit, hget, hexp, hcl]
          rw [hres]
          refine ⟨rfl, ?_⟩
          have hact2 : activeStore (cleanupMemoryStore
              { st with
                memoryStore := mset st.memoryStore sid
                  { r with lastAccessed := now } }
              now)
              = (mset st.memoryStore sid
                  { r with lastAccessed := now }).filter
                  (fun e => !expired now e.2.lastAccessed) := by
            simp [activeStore, cleanupMemoryStore, hcoll]
          rw [hact2]
          exact mget_filter_fresh st.memoryStore sid r now hnd hget
        · have hres : getConnectionString st (some sid) now initOc oc
              = (some r.connStr,
                 { st with
                   memoryStore := mset st.memoryStore sid
                     { r with lastAccessed := now } }) := by
            simp [getConnectionString, hinit, hget, hexp, hcl]
          rw [hres]
          refine ⟨rfl, ?_⟩
          have hact2 : activeStore
              { st with
                memoryStore := mset st.memoryStore sid
                  { r with lastAccessed := now } }
              = mset st.memoryStore sid { r with lastAccessed := now } := by
            simp [activeStore, hcoll]
          rw [hact2]
          exact mget_mset_self _ _ _
  refine ⟨main.1, main.2, ?_⟩
  intro hnow
  refine (main.2 ?_).1
  rw [hnow]
  exact expired_ninety_percent r.lastAccessed

/-- Witness for C3: a session resolved inside the window is returned with
its `lastAccessed` slid to `now`, in persistent mode and in fallback mode.
-/
theorem C3_witness :
    ((getConnectionString smallPersistentState (some 1) 20 .ok
        ⟨false, false, false, false, false⟩).1 = some "mongodb://d"
     ∧ mget (activeStore (getConnectionString smallPersistentState (some 1)
          20 .ok ⟨false, false, false, false, false⟩).2) 1
        = some ⟨"mongodb://d", 10, 20⟩)
    ∧ ((getConnectionString smallFallbackState (some 1) 20 .ok
        ⟨false, false, false, false, false⟩).1 = some "mongodb://m"
     ∧ mget (activeStore (getConnectionString smallFallbackState (some 1)
          20 .ok ⟨false, false, false, false, false⟩).2) 1
        = some ⟨"mongodb://m", 10, 20⟩) :=
  ⟨(C3_resolve_sliding_window smallPersistentState 1 ⟨"mongodb://d", 10, 10⟩
      20 .ok ⟨false, false, false, false, false⟩ (Or.inl rfl) rfl rfl rfl
      (by decide) (by decide)).2.1 (by decide),
   (C3_resolve_sliding_window smallFallbackState 1 ⟨"mongodb://m", 10, 10⟩
      20 .ok ⟨false, false, false, false, false⟩ (Or.inr ⟨rfl, rfl, rfl⟩) rfl
      rfl rfl (by decide) (by decide)).2.1 (by decide)⟩

theorem initSessionDB_modeFixed (st : SessionDBState) (oc : InitOutcome)
    (h : modeFixed st) : (initSessionDB st oc).2 = st := by
  rcases h with h | ⟨h1, h2⟩
  · simp [initSessionDB, h]
  · by_cases hc : st.hasCollection <;> simp [initSessionDB, hc, h1, h2]

theorem performCleanup_flags (st : SessionDBState) (now : Nat)
    (initOc : InitOutcome) (ct : Bool) (h : modeFixed st) :
    (performCleanup st now initOc ct).dbInitAttempted = st.dbInitAttempted
    ∧ (performCleanup st now initOc ct).dbAvailable = st.dbAvailable
    ∧ (performCleanup st now initOc ct).hasCollection = st.hasCollection := by
  rcases hinit : initSessionDB st initOc with ⟨coll, st'⟩
  have hst' : st' = st := by
    have h2 := initSessionDB_modeFixed st initOc h
    rw [hinit] at h2
    exact h2
  subst hst'
  cases coll <;> cases ct <;>
    simp [performCleanup, hinit, cleanupMemoryStore]

theorem createSession_flags (st : SessionDBState) (sid : SessionId)
    (connStr : String) (now : Nat) (initOc : InitOutcome) (insertOk : Bool)
    (h : modeFixed st) :
    (createSession st sid connStr now initOc insertOk).2.dbInitAttempted
        = st.dbInitAttempted
    ∧ (createSession st sid connStr now initOc insertOk).2.dbAvailable
        = st.dbAvailable
    ∧ (createSession st sid connStr now initOc insertOk).2.hasCollection
        = st.hasCollection := by
  rcases hinit : initSessionDB st initOc with ⟨coll, st'⟩
  have hst' : st' = st := by
    have h2 := initSessionDB_modeFixed st initOc h
    rw [hinit] at h2
    exact h2
  subst hst'
  cases coll <;> cases insertOk <;> simp [createSession, hinit]

theorem deleteSession_flags (st : SessionDBState) (sid : SessionId)
    (initOc : InitOutcome) (dt : Bool) (h : modeFixed st) :
    (deleteSession st sid initOc dt).2.dbInitAttempted = st.dbInitAttempted
    ∧ (deleteSession st sid initOc dt).2.dbAvailable = st.dbAvailable
    ∧ (deleteSession st sid initOc dt).2.hasCollection = st.hasCollection := by
  rcases hinit : initSessionDB st initOc with ⟨coll, st'⟩
  have hst' : st' = st := by
    have h2 := initSessionDB_modeFixed st initOc h
    rw [hinit] at h2
    exact h2
  subst hst'
  cases coll <;> cases dt <;> simp [deleteSession, hinit]

theorem getConnectionString_flags (st : SessionDBState)
    (sid? : Option SessionId) (now : Nat) (initOc : InitOutcome)
    (oc : ResolveOutcome) (h : modeFixed st) :
    (getConnectionString st sid? now initOc oc).2.dbInitAttempted
        = st.dbInitAttempted
    ∧ (getConnectionString st sid? now initOc oc).2.dbAvailable
        = st.dbAvailable
    ∧ (getConnectionString st sid? now initOc oc).2.hasCollection
        = st.hasCollection := by
  cases sid? with
  | none => simp [getConnectionString]
  | some sid =>
    rcases hinit : initSessionDB st initOc with ⟨coll, st'⟩
    have hst' : st' = st := by
      have h2 := initSessionDB_modeFixed st initOc h
      rw [hinit] at h2
      exact h2
    rw [hst'] at hinit
    cases coll with
    | none =>
      cases hm : mget st.memoryStore sid with
      | none => simp [getConnectionString, hinit, hm]
      | some r =>
        by_cases hexp : expired now r.lastAccessed
        · simp [getConnectionString, hinit, hm, hexp]
        · by_cases hcl : 5 * 60 * 1000 < now - st.lastCleanupTime <;>
            simp [getConnectionString, hinit, hm, hexp, hcl,
              cleanupMemoryStore]
    | some u =>
      by_cases hft : oc.findThrows
      · simp [getConnectionString, hinit, hft]
      · cases hm : mget st.dbStore sid with
        | none => simp [getConnectionString, hinit, hft, hm]
        | some r =>
          by_cases hexp : expired now r.lastAccessed
          · by_cases hdt : oc.deleteThrows <;>
              simp [getConnectionString, hinit, hft, hm, hexp, hdt]
          · by_cases hut : oc.updateThrows
            · simp [getConnectionString, hinit, hft, hm, hexp, hut]
            · by_cases hcf : oc.cleanupFires
              · have hmf1 : modeFixed
                    { st with
                      dbStore := mset st.dbStore sid
                        { r with lastAccessed := now } } := by
                  rcases h with h | ⟨h1, h2⟩
                  · exact Or.inl h
                  · exact Or.inr ⟨h1, h2⟩
                have hpf := performCleanup_flags
                  { st with
                    dbStore := mset st.dbStore sid
                      { r with lastAccessed := now } }
                  now initOc oc.cleanupThrows hmf1
                simp only at hpf
                simp [getConnectionString, hinit, hft, hm, hexp, hut, hcf,
                  hpf.1, hpf.2.1, hpf.2.2]
              · simp [getConnectionString, hinit, hft, hm, hexp, hut, hcf]

theorem applyOp_flags (st : SessionDBState) (op : SessionOp)
    (h : modeFixed st) :
    (applyOp st op).dbInitAttempted = st.dbInitAttempted
    ∧ (applyOp st op).dbAvailable = st.dbAvailable
    ∧ (applyOp st op).hasCollection = st.hasCollection := by
  cases op with
  | create sid connStr now initOc insertOk =>
    exact createSession_flags st sid connStr now initOc insertOk h
  | resolve sid? now initOc oc =>
    exact getConnectionString_flags st sid? now initOc oc h
  | del sid initOc dt => exact deleteSession_flags st sid initOc dt h
  | cleanup now initOc ct => exact performCleanup_flags st now initOc ct h

theorem applyOps_fallback (ops : List SessionOp) :
    ∀ st : SessionDBState, fallbackMode st → fallbackMode (applyOps st ops) := by
  induction ops with
  | nil =>
    intro st h
    simpa [applyOps] using h
  | cons op rest ih =>
    intro st h
    have hflags := applyOp_flags st op (Or.inr ⟨h.1, h.2.1⟩)
    have h1 : fallbackMode (applyOp st op) :=
      ⟨hflags.1.trans h.1, hflags.2.1.trans h.2.1, hflags.2.2.trans h.2.2⟩
    have hstep : applyOps st (op :: rest) = applyOps (applyOp st op) rest := by
      simp [applyOps]
    rw [hstep]
    exact ih (applyOp st op) h1

theorem applyOps_persistent (ops : List SessionOp) :
    ∀ st : SessionDBState, persistentMode st →
      persistentMode (applyOps st ops) := by
  induction ops with
  | nil =>
    intro st h
    simpa [applyOps] using h
  | cons op rest ih =>
    intro st h
    have hflags := applyOp_flags st op (Or.inl h)
    have h1 : persistentMode (applyOp st op) := hflags.2.2.trans h
    have hstep : applyOps st (op :: rest) = applyOps (applyOp st op) rest := by
      simp [applyOps]
    rw [hstep]
    exact ih (applyOp st op) h1

/-- C5 counterexample: initialization can fail AFTER the collection handle
is assigned (`createIndex` throws).  The failing first call is serviced in
fallback — the record lands in memory — yet the very next operations use
the persistent backend (`initSessionDB` now returns the cached collection,
and a clean resolve consults only the empty collection), so the store
reverts to persistent mode after a failed initialization. -/
theorem C5_counterexample :
    (createSession freshState 1 "mongodb://a" 5 .indexFails true).2.memoryStore
        = [(1, ⟨"mongodb://a", 5, 5⟩)]
    ∧ (createSession freshState 1 "mongodb://a" 5
        .indexFails true).2.hasCollection = true
    ∧ (initSessionDB (createSession freshState 1 "mongodb://a" 5
        .indexFails true).2 .connectFails).1 = some ()
    ∧ (getConnectionString (createSession freshState 1 "mongodb://a" 5
          .indexFails true).2 (some 1) 6 .connectFails
        ⟨false, false, false, false, false⟩).1 = none := by
  decide

/-- C5 amended: the committed mode is stable under every later operation —
whatever per-call storage errors occur — when fallback was entered at the
connect step (no collection cached): such a store never retries
initialization (`initSessionDB` returns `null` without touching state) and
stays in fallback forever; dually a store with a cached collection stays
persistent, so a per-call storage error never changes the committed mode.
The one exception, forced by the counterexample, is an initialization that
fails after the collection handle was assigned: only that first call falls
back, and subsequent operations run persistent. -/
theorem C5_amended_mode_stability (st : SessionDBState)
    (ops : List SessionOp) :
    (fallbackMode st → fallbackMode (applyOps st ops))
    ∧ (persistentMode st → persistentMode (applyOps st ops))
    ∧ (fallbackMode st → ∀ oc, initSessionDB st oc = (none, st)) :=
  ⟨applyOps_fallback ops st, applyOps_persistent ops st,
    fun hf oc => initSessionDB_fallback st oc hf⟩

/-- Witness for C5 amended: the concrete fallback-mode store stays in
fallback across a create (whose insert would throw), a resolve with every
driver call throwing, and a delete; and its init returns `null` leaving
the state unchanged. -/
theorem C5_amended_witness :
    fallbackMode (applyOps smallFallbackState
      [.create 2 "mongodb://x" 30 .ok false,
       .resolve (some 1) 31 .ok ⟨true, true, true, true, true⟩,
       .del 1 .ok true])
    ∧ initSessionDB smallFallbackState .ok
        = (none, smallFallbackState) :=
  ⟨(C5_amended_mode_stability smallFallbackState
      [.create 2 "mongodb://x" 30 .ok false,
       .resolve (some 1) 31 .ok ⟨true, true, true, true, true⟩,
       .del 1 .ok true]).1 ⟨rfl, rfl, rfl⟩,
   (C5_amended_mode_stability smallFallbackState
      [.create 2 "mongodb://x" 30 .ok false,
       .resolve (some 1) 31 .ok ⟨true, true, true, true, true⟩,
       .del 1 .ok true]).2.2 ⟨rfl, rfl, rfl⟩ .ok⟩

end DE
